import Mathlib

/-!
Verification of the prisma-adapter-node-sqlite driver adapter.

The adapter file (src/unnamed/part_002) is embedded directly.  The value
conversion module (conversion.js: getColumnTypes, mapArg, mapRow) and the error
translation module (errors.js: convertDriverError) are imported by the adapter
but their sources are not under src/, so they are modelled from the spec
(sections 4.1 and 4.2); every such definition carries a doc comment starting
with "Modelled from the spec:".  Everything else follows the adapter source.
-/

set_option maxRecDepth 8000

namespace PrismaNodeSqlite

/-! ### Calendar arithmetic for the timestamp conversions

Support for the spec-modelled timestamp conversion: proleptic Gregorian
calendar with the 400-year cycle, used by the ISO-8601 and epoch-milliseconds
representations. -/

/-- Proleptic Gregorian leap-year test. -/
def isLeap (y : Nat) : Bool :=
  (y % 4 == 0 && y % 100 != 0) || y % 400 == 0

/-- 1 if leap year, else 0. -/
def leapBit (y : Nat) : Nat := if isLeap y then 1 else 0

theorem leapBit_eq (y : Nat) :
    leapBit y = if (y % 4 = 0 ∧ y % 100 ≠ 0) ∨ y % 400 = 0 then 1 else 0 := by
  simp only [leapBit, isLeap]
  split_ifs with h1 h2 h2 <;> simp_all

theorem leapBit_le (y : Nat) : leapBit y ≤ 1 := by
  rw [leapBit_eq]; split_ifs <;> omega

/-- Number of days in month m (1-12) of a year with leap bit b
    (the quotient expression encodes the 31/30 pattern of the shifted month
    index used by the civil-day conversion below). -/
def monthLen (b m : Nat) : Nat :=
  if m = 2 then 28 + b
  else (153 * ((m + 9) % 12) + 155) / 5 - (153 * ((m + 9) % 12) + 2) / 5

example : (List.range 12).map (fun i => monthLen 0 (i + 1)) =
    [31, 28, 31, 30, 31, 30, 31, 31, 30, 31, 30, 31] := by decide
example : monthLen 1 2 = 29 := by decide

/-- Days before era-year index u within a 400-year Gregorian cycle
    (era-years run March..February, so each leap day lands at an era-year's
    end). -/
def dbyc (u : Nat) : Nat :=
  365 * u + u / 4 - u / 100

/-- Civil date (year, month 1-12, day) to day count since 0000-03-01. -/
def civilToDays (y m d : Nat) : Nat :=
  146097 * ((y - (m + 9) % 12 / 10) / 400) +
  dbyc ((y - (m + 9) % 12 / 10) % 400) +
  ((153 * ((m + 9) % 12) + 2) / 5 + d - 1)

theorem dbyc_step (n : Nat) : dbyc n ≤ dbyc (n + 1) := by
  simp only [dbyc]; omega

theorem dbyc_le_of_le {a b : Nat} (h : a ≤ b) : dbyc a ≤ dbyc b := by
  induction b with
  | zero =>
    have h0 : a = 0 := by omega
    rw [h0]
  | succ n ih =>
    rcases Nat.lt_or_ge a (n + 1) with h1 | h1
    · exact Nat.le_trans (ih (by omega)) (dbyc_step n)
    · have h2 : a = n + 1 := by omega
      rw [h2]

/-- Largest era-year index u with dbyc u ≤ dz, by fuel-bounded linear search
    (structural recursion so the kernel can evaluate it). -/
def yearInCycleGo (dz : Nat) : Nat → Nat → Nat
  | u, 0 => u
  | u, fuel + 1 => if dbyc (u + 1) ≤ dz then yearInCycleGo dz (u + 1) fuel else u

def yearInCycle (dz : Nat) : Nat := yearInCycleGo dz 0 399

theorem yearInCycleGo_eq (dz fuel u r : Nat) (hur : u ≤ r) (hrf : r ≤ u + fuel)
    (hf : u + fuel ≤ 399)
    (h1 : dbyc r ≤ dz) (h2 : r = 399 ∨ dz < dbyc (r + 1)) :
    yearInCycleGo dz u fuel = r := by
  induction fuel generalizing u with
  | zero => simp only [yearInCycleGo]; omega
  | succ n ih =>
    simp only [yearInCycleGo]
    by_cases hc : dbyc (u + 1) ≤ dz
    · rw [if_pos hc]
      rcases Nat.lt_or_ge u r with h3 | h3
      · exact ih (u + 1) (by omega) (by omega) (by omega)
      · have hur' : u = r := by omega
        subst hur'
        rcases h2 with h2 | h2
        · omega
        · omega
    · rw [if_neg hc]
      rcases Nat.lt_or_ge u r with h3 | h3
      · have := dbyc_le_of_le (show u + 1 ≤ r by omega)
        omega
      · omega

theorem yearInCycle_eq (dz r : Nat) (hr : r ≤ 399)
    (h1 : dbyc r ≤ dz) (h2 : r = 399 ∨ dz < dbyc (r + 1)) :
    yearInCycle dz = r :=
  yearInCycleGo_eq dz 399 0 r (Nat.zero_le r) (by omega) (by omega) h1 h2

/-- Day count since 0000-03-01 back to civil (year, month, day). -/
def daysToCivil (rd : Nat) : Nat × Nat × Nat :=
  (400 * (rd / 146097) + yearInCycle (rd % 146097) +
     (5 * (rd % 146097 - dbyc (yearInCycle (rd % 146097))) + 2) / 153 / 10,
   (5 * (rd % 146097 - dbyc (yearInCycle (rd % 146097))) + 2) / 153 + 3 -
     12 * ((5 * (rd % 146097 - dbyc (yearInCycle (rd % 146097))) + 2) / 153 / 10),
   rd % 146097 - dbyc (yearInCycle (rd % 146097)) -
     (153 * ((5 * (rd % 146097 - dbyc (yearInCycle (rd % 146097))) + 2) / 153) + 2) / 5 + 1)

example : daysToCivil (civilToDays 1970 1 1) = (1970, 1, 1) := by decide
example : daysToCivil (civilToDays 2000 2 29) = (2000, 2, 29) := by decide
example : daysToCivil (civilToDays 9999 12 31) = (9999, 12, 31) := by decide
example : daysToCivil (civilToDays 2100 2 28) = (2100, 2, 28) := by decide
example : daysToCivil (civilToDays 2096 2 29) = (2096, 2, 29) := by decide

/-! Arithmetic steps for the civil-day round trip, each with a fixed
hypothesis list so that omega works on a small constraint set. -/

theorem calA1 (m d mp doy : Nat) (hm1 : 1 ≤ m) (hm2 : m ≤ 12)
    (hd1 : 1 ≤ d) (hmp : mp = (m + 9) % 12)
    (hd2 : d ≤ (153 * mp + 155) / 5 - (153 * mp + 2) / 5)
    (hdoy : doy = (153 * mp + 2) / 5 + d - 1) (h2 : m ≠ 2) : doy ≤ 336 := by
  have hle : mp ≤ 10 := by omega
  omega

theorem calA2 (m d b mp doy : Nat) (hd1 : 1 ≤ d) (hmp : mp = (m + 9) % 12)
    (hd2 : d ≤ 28 + b) (hdoy : doy = (153 * mp + 2) / 5 + d - 1) (h2 : m = 2) :
    doy ≤ 364 + b := by
  omega

theorem calYrec (y m mp y' era yoe : Nat) (hy1 : 1 ≤ y)
    (hmp : mp = (m + 9) % 12) (hy' : y' = y - mp / 10)
    (hera : era = y' / 400) (hyoe : yoe = y' % 400) (h2 : m = 2) :
    y = 400 * era + yoe + 1 := by
  omega

theorem calLeapT (y era yoe b : Nat)
    (hleapy : b = 1 ↔ ((y % 4 = 0 ∧ y % 100 ≠ 0) ∨ y % 400 = 0))
    (hb1 : b = 1) (hyrec : y = 400 * era + yoe + 1) (hyoeB : yoe ≤ 399) :
    ((yoe + 1) % 4 = 0 ∧ (yoe + 1) % 100 ≠ 0) ∨ yoe = 399 := by
  omega

theorem calSandLo (yoe doy doe : Nat)
    (hdoe : doe = 365 * yoe + yoe / 4 - yoe / 100 + doy) :
    365 * yoe + yoe / 4 - yoe / 100 ≤ doe := by
  omega

theorem calSandHi (m b yoe doy doe : Nat)
    (hdoe : doe = 365 * yoe + yoe / 4 - yoe / 100 + doy)
    (hA : doy ≤ 336 ∨ (m = 2 ∧ doy ≤ 364 + b)) (hb : b ≤ 1)
    (hB : m = 2 → b = 1 → ((yoe + 1) % 4 = 0 ∧ (yoe + 1) % 100 ≠ 0) ∨ yoe = 399)
    (hC : (yoe + 1) % 100 = 0 → (yoe + 1) % 4 = 0) :
    yoe = 399 ∨ doe < 365 * (yoe + 1) + (yoe + 1) / 4 - (yoe + 1) / 100 := by
  omega

theorem calSplit (m b era yoe doy doe rd : Nat)
    (hdoe : doe = 365 * yoe + yoe / 4 - yoe / 100 + doy)
    (hrd : rd = 146097 * era + doe) (hyoeB : yoe ≤ 399)
    (hA : doy ≤ 336 ∨ (m = 2 ∧ doy ≤ 364 + b)) (hb : b ≤ 1) :
    rd / 146097 = era ∧ rd % 146097 = doe := by
  omega

theorem calMprec (m d b mp yoe doy doe : Nat) (hd1 : 1 ≤ d) (hmpB : mp ≤ 11)
    (hb : b ≤ 1)
    (hbd : (m = 2 ∧ d ≤ 28 + b) ∨
           (m ≠ 2 ∧ d ≤ (153 * mp + 155) / 5 - (153 * mp + 2) / 5))
    (hfeb : m = 2 → mp = 11)
    (hdoy : doy = (153 * mp + 2) / 5 + d - 1)
    (hdoe : doe = 365 * yoe + yoe / 4 - yoe / 100 + doy) :
    (5 * (doe - (365 * yoe + yoe / 4 - yoe / 100)) + 2) / 153 = mp := by
  omega

theorem calDrec (d mp yoe doy doe : Nat) (hd1 : 1 ≤ d)
    (hdoy : doy = (153 * mp + 2) / 5 + d - 1)
    (hdoe : doe = 365 * yoe + yoe / 4 - yoe / 100 + doy) :
    doe - (365 * yoe + yoe / 4 - yoe / 100) - (153 * mp + 2) / 5 + 1 = d := by
  omega

theorem calMrec (m mp : Nat) (hm1 : 1 ≤ m) (hm2 : m ≤ 12)
    (hmp : mp = (m + 9) % 12) : mp + 3 - 12 * (mp / 10) = m := by
  omega

theorem calYrec2 (y m mp y' era yoe : Nat) (hy1 : 1 ≤ y)
    (hmp : mp = (m + 9) % 12) (hy' : y' = y - mp / 10)
    (hera : era = y' / 400) (hyoe : yoe = y' % 400) :
    400 * era + yoe + mp / 10 = y := by
  omega

theorem daysToCivil_core (y m d b mp y' era yoe doy doe rd : Nat)
    (hy1 : 1 ≤ y) (hy2 : y ≤ 9999) (hm1 : 1 ≤ m) (hm2 : m ≤ 12) (hd1 : 1 ≤ d)
    (hb : b ≤ 1)
    (hbd : (m = 2 ∧ d ≤ 28 + b) ∨
           (m ≠ 2 ∧ d ≤ (153 * mp + 155) / 5 - (153 * mp + 2) / 5))
    (hleapy : b = 1 ↔ ((y % 4 = 0 ∧ y % 100 ≠ 0) ∨ y % 400 = 0))
    (hmp : mp = (m + 9) % 12)
    (hy' : y' = y - mp / 10)
    (hera : era = y' / 400) (hyoe : yoe = y' % 400)
    (hdoy : doy = (153 * mp + 2) / 5 + d - 1)
    (hdoe : doe = 365 * yoe + yoe / 4 - yoe / 100 + doy)
    (hrd : rd = 146097 * era + doe) :
    daysToCivil rd = (y, m, d) := by
  have hyoeB : yoe ≤ 399 := by omega
  have hmpB : mp ≤ 11 := by omega
  have hA : doy ≤ 336 ∨ (m = 2 ∧ doy ≤ 364 + b) := by
    by_cases h : m = 2
    · rcases hbd with ⟨_, h3⟩ | ⟨h3, _⟩
      · exact Or.inr ⟨h, calA2 m d b mp doy hd1 hmp h3 hdoy h⟩
      · exact absurd h h3
    · rcases hbd with ⟨h3, _⟩ | ⟨_, h3⟩
      · exact absurd h3 h
      · exact Or.inl (calA1 m d mp doy hm1 hm2 hd1 hmp h3 hdoy h)
  have hB : m = 2 → b = 1 → ((yoe + 1) % 4 = 0 ∧ (yoe + 1) % 100 ≠ 0) ∨ yoe = 399 :=
    fun h2 hb1 =>
      calLeapT y era yoe b hleapy hb1
        (calYrec y m mp y' era yoe hy1 hmp hy' hera hyoe h2) hyoeB
  have hC : (yoe + 1) % 100 = 0 → (yoe + 1) % 4 = 0 := by omega
  obtain ⟨h1, h2⟩ := calSplit m b era yoe doy doe rd hdoe hrd hyoeB hA hb
  have hsearch : yearInCycle doe = yoe := by
    apply yearInCycle_eq doe yoe hyoeB
    · show dbyc yoe ≤ doe
      simp only [dbyc]
      exact calSandLo yoe doy doe hdoe
    · rcases calSandHi m b yoe doy doe hdoe hA hb hB hC with h | h
      · exact Or.inl h
      · refine Or.inr ?_
        simp only [dbyc]
        exact h
  have hmprec : (5 * (doe - dbyc yoe) + 2) / 153 = mp := by
    simp only [dbyc]
    exact calMprec m d b mp yoe doy doe hd1 hmpB hb hbd (by omega) hdoy hdoe
  simp only [daysToCivil, h1, h2, hsearch, hmprec]
  simp only [dbyc, Prod.mk.injEq]
  exact ⟨calYrec2 y m mp y' era yoe hy1 hmp hy' hera hyoe,
    calMrec m mp hm1 hm2 hmp,
    calDrec d mp yoe doy doe hd1 hdoy hdoe⟩

theorem daysToCivil_civilToDays (y m d : Nat)
    (hy1 : 1 ≤ y) (hy2 : y ≤ 9999) (hm1 : 1 ≤ m) (hm2 : m ≤ 12)
    (hd1 : 1 ≤ d) (hd2 : d ≤ monthLen (leapBit y) m) :
    daysToCivil (civilToDays y m d) = (y, m, d) := by
  have hbd : (m = 2 ∧ d ≤ 28 + leapBit y) ∨
      (m ≠ 2 ∧
        d ≤ (153 * ((m + 9) % 12) + 155) / 5 - (153 * ((m + 9) % 12) + 2) / 5) := by
    by_cases h : m = 2
    · left
      refine ⟨h, ?_⟩
      unfold monthLen at hd2
      rw [if_pos h] at hd2
      exact hd2
    · right
      refine ⟨h, ?_⟩
      unfold monthLen at hd2
      rw [if_neg h] at hd2
      exact hd2
  have hleapy : leapBit y = 1 ↔ ((y % 4 = 0 ∧ y % 100 ≠ 0) ∨ y % 400 = 0) := by
    rw [leapBit_eq]
    split_ifs with h <;> simp [h]
  apply daysToCivil_core y m d (leapBit y) ((m + 9) % 12)
      (y - (m + 9) % 12 / 10)
      ((y - (m + 9) % 12 / 10) / 400) ((y - (m + 9) % 12 / 10) % 400)
      ((153 * ((m + 9) % 12) + 2) / 5 + d - 1)
      (365 * ((y - (m + 9) % 12 / 10) % 400) + ((y - (m + 9) % 12 / 10) % 400) / 4 -
        ((y - (m + 9) % 12 / 10) % 400) / 100 +
        ((153 * ((m + 9) % 12) + 2) / 5 + d - 1))
      (civilToDays y m d)
      hy1 hy2 hm1 hm2 hd1 (leapBit_le y) hbd hleapy rfl rfl rfl rfl rfl rfl
  simp only [civilToDays, dbyc]
  omega

/-! ### ISO-8601 text layer -/

def digitChar (n : Nat) : Char := Char.ofNat (48 + n % 10)

theorem digitChar_toNat (n : Nat) : (digitChar n).toNat = 48 + n % 10 := by
  unfold digitChar
  have h : n % 10 < 10 := Nat.mod_lt n (by omega)
  interval_cases h2 : n % 10 <;> decide

def digitVal (c : Char) : Nat := c.toNat - 48

def isDigit (c : Char) : Prop := 48 ≤ c.toNat ∧ c.toNat ≤ 57

instance (c : Char) : Decidable (isDigit c) := by unfold isDigit; infer_instance

theorem digitVal_digitChar (n : Nat) : digitVal (digitChar n) = n % 10 := by
  simp [digitVal, digitChar_toNat]

theorem isDigit_digitChar (n : Nat) : isDigit (digitChar n) := by
  simp only [isDigit, digitChar_toNat]
  omega

/-- Render the fixed-width ISO-8601 timestamp layout (year, month, day, hour,
    minute, second, millisecond) as a char list. -/
def isoChars (y mo d h mi s ms : Nat) : List Char :=
  [digitChar (y / 1000), digitChar (y / 100), digitChar (y / 10), digitChar y,
   '-', digitChar (mo / 10), digitChar mo,
   '-', digitChar (d / 10), digitChar d,
   'T', digitChar (h / 10), digitChar h,
   ':', digitChar (mi / 10), digitChar mi,
   ':', digitChar (s / 10), digitChar s,
   '.', digitChar (ms / 100), digitChar (ms / 10), digitChar ms,
   'Z']

/-- Parse the fixed-width ISO-8601 timestamp layout back into raw fields. -/
def isoFieldsOfChars (cs : List Char) : Option (Nat × Nat × Nat × Nat × Nat × Nat × Nat) :=
  match cs with
  | [y1, y2, y3, y4, s1, o1, o2, s2, d1, d2, s3, h1, h2, s4, i1, i2, s5, e1, e2, s6,
     f1, f2, f3, s7] =>
    if s1 = '-' ∧ s2 = '-' ∧ s3 = 'T' ∧ s4 = ':' ∧ s5 = ':' ∧ s6 = '.' ∧ s7 = 'Z' ∧
       isDigit y1 ∧ isDigit y2 ∧ isDigit y3 ∧ isDigit y4 ∧
       isDigit o1 ∧ isDigit o2 ∧ isDigit d1 ∧ isDigit d2 ∧
       isDigit h1 ∧ isDigit h2 ∧ isDigit i1 ∧ isDigit i2 ∧
       isDigit e1 ∧ isDigit e2 ∧ isDigit f1 ∧ isDigit f2 ∧ isDigit f3 then
      some (digitVal y1 * 1000 + digitVal y2 * 100 + digitVal y3 * 10 + digitVal y4,
            digitVal o1 * 10 + digitVal o2,
            digitVal d1 * 10 + digitVal d2,
            digitVal h1 * 10 + digitVal h2,
            digitVal i1 * 10 + digitVal i2,
            digitVal e1 * 10 + digitVal e2,
            digitVal f1 * 100 + digitVal f2 * 10 + digitVal f3)
    else none
  | _ => none

example : isoFieldsOfChars (isoChars 2024 5 7 13 59 8 123) =
    some (2024, 5, 7, 13, 59, 8, 123) := by rfl

theorem isoFieldsOfChars_isoChars (y mo d h mi s ms : Nat)
    (hy : y ≤ 9999) (hmo : mo ≤ 99) (hd : d ≤ 99) (hh : h ≤ 99) (hmi : mi ≤ 99)
    (hs : s ≤ 99) (hms : ms ≤ 999) :
    isoFieldsOfChars (isoChars y mo d h mi s ms) = some (y, mo, d, h, mi, s, ms) := by
  simp only [isoChars, isoFieldsOfChars]
  rw [if_pos]
  · simp only [digitVal_digitChar, Option.some.injEq, Prod.mk.injEq]
    refine ⟨by omega, by omega, by omega, by omega, by omega, by omega, by omega⟩
  · simp [isDigit_digitChar]

/-! ### Timestamp values and the two configured representations -/

/-- A calendar timestamp value (what an ORM-facing DateTime denotes). -/
structure DateTimeVal where
  year : Nat
  month : Nat
  day : Nat
  hour : Nat
  minute : Nat
  second : Nat
  milli : Nat
deriving DecidableEq, Repr

/-- The timestamp is an actual calendar instant with a 4-digit year. -/
def DateTimeVal.Valid (t : DateTimeVal) : Prop :=
  1 ≤ t.year ∧ t.year ≤ 9999 ∧ 1 ≤ t.month ∧ t.month ≤ 12 ∧
  1 ≤ t.day ∧ t.day ≤ monthLen (leapBit t.year) t.month ∧
  t.hour < 24 ∧ t.minute < 60 ∧ t.second < 60 ∧ t.milli < 1000

instance (t : DateTimeVal) : Decidable t.Valid := by
  unfold DateTimeVal.Valid; infer_instance

/-- Render a timestamp as ISO-8601 text "YYYY-MM-DDTHH:MM:SS.mmmZ". -/
def isoFormat (t : DateTimeVal) : String :=
  String.mk (isoChars t.year t.month t.day t.hour t.minute t.second t.milli)

/-- Parse ISO-8601 text, validating that it denotes a calendar instant. -/
def isoParse (str : String) : Option DateTimeVal :=
  match isoFieldsOfChars str.toList with
  | none => none
  | some (y, mo, d, h, mi, s, ms) =>
    if (DateTimeVal.mk y mo d h mi s ms).Valid then some (DateTimeVal.mk y mo d h mi s ms)
    else none

theorem isoParse_isoFormat (t : DateTimeVal) (hv : t.Valid) :
    isoParse (isoFormat t) = some t := by
  obtain ⟨y, mo, d, h, mi, s, ms⟩ := t
  simp only [DateTimeVal.Valid] at hv
  obtain ⟨h1, h2, h3, h4, h5, h6, h7, h8, h9, h10⟩ := hv
  have hml : monthLen (leapBit y) mo ≤ 31 := by
    unfold monthLen
    have := leapBit_le y
    split_ifs <;> omega
  simp only [isoFormat, isoParse]
  rw [show (String.mk (isoChars y mo d h mi s ms)).toList = isoChars y mo d h mi s ms
    from rfl]
  rw [isoFieldsOfChars_isoChars y mo d h mi s ms (by omega) (by omega) (by omega)
    (by omega) (by omega) (by omega) (by omega)]
  show (if (DateTimeVal.mk y mo d h mi s ms).Valid then some (DateTimeVal.mk y mo d h mi s ms)
    else none) = some (DateTimeVal.mk y mo d h mi s ms)
  rw [if_pos (show (DateTimeVal.mk y mo d h mi s ms).Valid from
    ⟨h1, h2, h3, h4, h5, h6, h7, h8, h9, h10⟩)]

/-- Milliseconds since the Unix epoch (1970-01-01T00:00:00Z). -/
def epochMs (t : DateTimeVal) : Int :=
  ((civilToDays t.year t.month t.day : Int) - 719468) * 86400000 +
    (t.hour * 3600000 + t.minute * 60000 + t.second * 1000 + t.milli : Nat)

/-- Epoch milliseconds back to a timestamp; none when outside the range the
    calendar machinery covers. -/
def msToDateTime (ms : Int) : Option DateTimeVal :=
  if hlo : ms / 86400000 + 719468 < 306 then none
  else
    let rd : Nat := (ms / 86400000 + 719468).toNat
    let msod : Nat := (ms % 86400000).toNat
    let y := (daysToCivil rd).1
    let mo := (daysToCivil rd).2.1
    let d := (daysToCivil rd).2.2
    let t : DateTimeVal := DateTimeVal.mk y mo d (msod / 3600000) (msod % 3600000 / 60000)
      (msod % 60000 / 1000) (msod % 1000)
    if t.Valid then some t else none

example : msToDateTime (epochMs (DateTimeVal.mk 2024 5 7 13 59 8 123)) =
    some (DateTimeVal.mk 2024 5 7 13 59 8 123) := by rfl

theorem msToDateTime_epochMs (t : DateTimeVal) (hv : t.Valid) :
    msToDateTime (epochMs t) = some t := by
  obtain ⟨y, mo, d, h, mi, s, ms⟩ := t
  simp only [DateTimeVal.Valid] at hv
  obtain ⟨h1, h2, h3, h4, h5, h6, h7, h8, h9, h10⟩ := hv
  have hrdlo : 306 ≤ civilToDays y mo d := by
    simp only [civilToDays, dbyc]
    omega
  have hdiv : epochMs (DateTimeVal.mk y mo d h mi s ms) / 86400000 =
      (civilToDays y mo d : Int) - 719468 := by
    simp only [epochMs]
    omega
  have hmod : epochMs (DateTimeVal.mk y mo d h mi s ms) % 86400000 =
      (h * 3600000 + mi * 60000 + s * 1000 + ms : Nat) := by
    simp only [epochMs]
    omega
  simp only [msToDateTime, hdiv, hmod]
  rw [dif_neg (by omega)]
  have hrdnat : ((civilToDays y mo d : Int) - 719468 + 719468).toNat = civilToDays y mo d := by
    omega
  rw [hrdnat]
  have hmsodnat : ((h * 3600000 + mi * 60000 + s * 1000 + ms : Nat) : Int).toNat =
      h * 3600000 + mi * 60000 + s * 1000 + ms := by
    omega
  rw [hmsodnat]
  rw [daysToCivil_civilToDays y mo d h1 h2 h3 h4 h5 h6]
  have e1 : (h * 3600000 + mi * 60000 + s * 1000 + ms) / 3600000 = h := by omega
  have e2 : (h * 3600000 + mi * 60000 + s * 1000 + ms) % 3600000 / 60000 = mi := by omega
  have e3 : (h * 3600000 + mi * 60000 + s * 1000 + ms) % 60000 / 1000 = s := by omega
  have e4 : (h * 3600000 + mi * 60000 + s * 1000 + ms) % 1000 = ms := by omega
  simp only [e1, e2, e3, e4]
  rw [if_pos (show (DateTimeVal.mk y mo d h mi s ms).Valid from
    ⟨h1, h2, h3, h4, h5, h6, h7, h8, h9, h10⟩)]

/-! ### Value conversion (spec-modelled: conversion.js is not under src/) -/

def isDigitB (c : Char) : Bool := 48 ≤ c.toNat && c.toNat ≤ 57

def digitsNE (l : List Char) : Bool := !l.isEmpty && l.all isDigitB

/-- Digit-string check for decimal-as-text values: optional sign, digits,
    optionally a dot and fractional digits. -/
def isValidDecimal (s : String) : Bool :=
  match (match s.toList with
         | '-' :: rest => rest
         | rest => rest).splitOn '.' with
  | [ip] => digitsNE ip
  | [ip, fp] => digitsNE ip && digitsNE fp
  | _ => false

def decEx1 : String := "123.45"
def decEx2 : String := "-0.5"
def decEx3 : String := "1e5"
def decEx4 : String := "1.2.3"

example : isValidDecimal decEx1 = true := by decide
example : isValidDecimal decEx2 = true := by decide
example : isValidDecimal decEx3 = false := by decide
example : isValidDecimal decEx4 = false := by decide

def skipWs : List Char → List Char
  | c :: rest => if c = ' ' ∨ c = '\t' ∨ c = '\n' ∨ c = '\r' then skipWs rest else c :: rest
  | [] => []

/-- body of a JSON string after the opening quote (escapes allowed). -/
def jsonString : List Char → Option (List Char)
  | [] => none
  | '"' :: rest => some rest
  | '\\' :: _ :: rest => jsonString rest
  | _ :: rest => jsonString rest

def numChar (c : Char) : Bool :=
  isDigitB c || c = '-' || c = '+' || c = '.' || c = 'e' || c = 'E'

/-- lexes a JSON number; requires at least one digit. -/
def jsonNumber (cs : List Char) : Option (List Char) :=
  if (cs.takeWhile numChar).any isDigitB then some (cs.dropWhile numChar) else none

mutual

/-- JSON syntax check (recursive descent over the char list, fuel-bounded):
    value is an object, array, string, number, true, false or null. -/
def jsonValue (fuel : Nat) (cs : List Char) : Option (List Char) :=
  match fuel with
  | 0 => none
  | fuel + 1 =>
    match skipWs cs with
    | 'n' :: 'u' :: 'l' :: 'l' :: rest => some rest
    | 't' :: 'r' :: 'u' :: 'e' :: rest => some rest
    | 'f' :: 'a' :: 'l' :: 's' :: 'e' :: rest => some rest
    | '"' :: rest => jsonString rest
    | '{' :: rest =>
      match skipWs rest with
      | '}' :: rest2 => some rest2
      | rest2 => jsonMembers fuel rest2
    | '[' :: rest =>
      match skipWs rest with
      | ']' :: rest2 => some rest2
      | rest2 => jsonElements fuel rest2
    | cs2 => jsonNumber cs2

/-- key-value pairs of a JSON object, after any leading whitespace. -/
def jsonMembers (fuel : Nat) (cs : List Char) : Option (List Char) :=
  match fuel with
  | 0 => none
  | fuel + 1 =>
    match cs with
    | '"' :: rest =>
      match jsonString rest with
      | none => none
      | some rest2 =>
        match skipWs rest2 with
        | ':' :: rest3 =>
          match jsonValue fuel rest3 with
          | none => none
          | some rest4 =>
            match skipWs rest4 with
            | ',' :: rest5 => jsonMembers fuel (skipWs rest5)
            | '}' :: rest5 => some rest5
            | _ => none
        | _ => none
    | _ => none

/-- elements of a JSON array, after any leading whitespace. -/
def jsonElements (fuel : Nat) (cs : List Char) : Option (List Char) :=
  match fuel with
  | 0 => none
  | fuel + 1 =>
    match jsonValue fuel cs with
    | none => none
    | some rest =>
      match skipWs rest with
      | ',' :: rest2 => jsonElements fuel rest2
      | ']' :: rest2 => some rest2
      | _ => none

end

/-- JSON well-formedness of a text value. -/
def isValidJson (s : String) : Bool :=
  match jsonValue (s.toList.length + 1) s.toList with
  | some rest => skipWs rest = []
  | none => false

def jsonEx1 : String := "\x7b\"a\": [1, 2.5, null], \"b\": \"x\"\x7d"
def jsonEx2 : String := "12.5e3"
def jsonEx3 : String := "not json"
def jsonEx4 : String := "\x7b\"a\": \x7d"

example : isValidJson jsonEx1 = true := by decide
example : isValidJson jsonEx2 = true := by decide
example : isValidJson jsonEx3 = false := by decide
example : isValidJson jsonEx4 = false := by decide

/-- ORM-facing logical column types (spec section 3: text, integer, 64-bit
    integer, float, decimal-as-text, boolean, date/time, JSON, binary, null,
    unknown). -/
inductive ColumnType where
  | text | int32 | int64 | float | decimal | boolean | datetime | json | bytes
  | nullCol | unknown
deriving DecidableEq, Repr

/-- Values as the embedded engine stores them (with big-integer reads enabled,
    INTEGER data reads back as a big integer). -/
inductive EngineValue where
  | null
  | int (n : Int)
  | bigint (n : Int)
  | real (x : Float)
  | text (s : String)
  | blob (bs : List Nat)

/-- Values in the shape the ORM wire format requires. -/
inductive ORMValue where
  | null
  | int (n : Int)
  | bigint (n : Int)
  | float (x : Float)
  | text (s : String)
  | decimal (s : String)
  | bool (b : Bool)
  | datetime (t : DateTimeVal)
  | json (s : String)
  | bytes (bs : List Nat)

/-- The two timestamp representations the adapter can be configured with. -/
inductive TimestampFormat where
  | iso8601 | unixepochMs
deriving DecidableEq, Repr

/-- PrismaNodeSQLiteOptions: optional timestamp format, default ISO-8601. -/
structure AdapterOptions where
  timestampFormat : TimestampFormat := .iso8601
deriving DecidableEq, Repr

/-- Conversion failure: a value that cannot be represented losslessly. -/
inductive ConvErr where
  | typeMismatch
deriving DecidableEq, Repr

/-- Modelled from the spec: outbound conversion (mapArg of the conversion
    module, which is not under src/): map each ORM-declared argument type to
    the narrowest native representation the engine accepts; big integers bind
    natively, decimals bind as text, JSON binds as its serialized text,
    booleans bind as 0/1, timestamps bind per the configured format; fail with
    a type mismatch if the value cannot be represented losslessly. -/
def mapArg (v : ORMValue) (t : ColumnType) (opts : AdapterOptions) :
    Except ConvErr EngineValue :=
  match v, t with
  | .null, _ => .ok .null
  | .text s, .text => .ok (.text s)
  | .int n, .int32 => .ok (.int n)
  | .bigint n, .int64 => .ok (.bigint n)
  | .float x, .float => .ok (.real x)
  | .decimal s, .decimal =>
    if isValidDecimal s then .ok (.text s) else .error .typeMismatch
  | .bool b, .boolean => .ok (.int (if b then 1 else 0))
  | .datetime dt, .datetime =>
    if dt.Valid then
      match opts.timestampFormat with
      | .iso8601 => .ok (.text (isoFormat dt))
      | .unixepochMs => .ok (.int (epochMs dt))
    else .error .typeMismatch
  | .json s, .json => .ok (.text s)
  | .bytes bs, .bytes => .ok (.blob bs)
  | _, _ => .error .typeMismatch

/-- Modelled from the spec: inbound conversion of one engine value at one
    ColumnType (the per-value step of mapRow of the conversion module, which is
    not under src/): booleans from 0/1, 64-bit integers kept at full precision,
    decimals returned as exact decimal text, timestamps read per the configured
    format, JSON parsed with a parse failure surfacing a type mismatch, binary
    passed through unchanged. -/
def mapValue (ev : EngineValue) (t : ColumnType) (opts : AdapterOptions) :
    Except ConvErr ORMValue :=
  match ev, t with
  | .null, _ => .ok .null
  | .text s, .text => .ok (.text s)
  | .int n, .int32 => .ok (.int n)
  | .bigint n, .int32 => .ok (.int n)
  | .int n, .int64 => .ok (.bigint n)
  | .bigint n, .int64 => .ok (.bigint n)
  | .real x, .float => .ok (.float x)
  | .text s, .decimal => .ok (.decimal s)
  | .int n, .boolean =>
    if n = 0 then .ok (.bool false)
    else if n = 1 then .ok (.bool true)
    else .error .typeMismatch
  | .bigint n, .boolean =>
    if n = 0 then .ok (.bool false)
    else if n = 1 then .ok (.bool true)
    else .error .typeMismatch
  | .text s, .datetime =>
    match isoParse s with
    | some dt => .ok (.datetime dt)
    | none => .error .typeMismatch
  | .int n, .datetime =>
    match msToDateTime n with
    | some dt => .ok (.datetime dt)
    | none => .error .typeMismatch
  | .bigint n, .datetime =>
    match msToDateTime n with
    | some dt => .ok (.datetime dt)
    | none => .error .typeMismatch
  | .text s, .json =>
    if isValidJson s then .ok (.json s) else .error .typeMismatch
  | .blob bs, .bytes => .ok (.bytes bs)
  | .int n, .unknown => .ok (.int n)
  | .bigint n, .unknown => .ok (.bigint n)
  | .real x, .unknown => .ok (.float x)
  | .text s, .unknown => .ok (.text s)
  | .blob bs, .unknown => .ok (.bytes bs)
  | _, _ => .error .typeMismatch

/-- v is a well-formed ORM value of logical type t. -/
def TypedValue (t : ColumnType) (v : ORMValue) : Prop :=
  match t, v with
  | .text, .text _ => True
  | .int32, .int n => -(2 ^ 31) ≤ n ∧ n < 2 ^ 31
  | .int64, .bigint n => -(2 ^ 63) ≤ n ∧ n < 2 ^ 63
  | .float, .float _ => True
  | .decimal, .decimal s => isValidDecimal s = true
  | .boolean, .bool _ => True
  | .datetime, .datetime dt => dt.Valid
  | .json, .json s => isValidJson s = true
  | .bytes, .bytes bs => ∀ b ∈ bs, b < 256
  | .nullCol, .null => True
  | _, _ => False

instance (t : ColumnType) (v : ORMValue) : Decidable (TypedValue t v) := by
  unfold TypedValue
  cases t <;> cases v <;> exact inferInstance

/-- Outbound conversion of one value followed by the inbound read-back. -/
def roundTrip (v : ORMValue) (t : ColumnType) (opts : AdapterOptions) :
    Except ConvErr ORMValue :=
  (mapArg v t opts).bind fun ev => mapValue ev t opts

/-! ### Column-type inference (spec-modelled: conversion.js is not under src/) -/

def EngineValue.isNull : EngineValue → Bool
  | .null => true
  | _ => false

/-- Value of a row at column index i (missing entries read as null). -/
def colValue (row : List EngineValue) (i : Nat) : EngineValue :=
  row.getD i .null

/-- Modelled from the spec: the runtime value shape determines the inferred
    type: an ordinary (non-big) integer infers integer, a big integer infers
    the 64-bit integer type, a real infers float, text infers text, a blob
    infers binary. -/
def inferTypeOfValue : EngineValue → ColumnType
  | .null => .unknown
  | .int _ => .int32
  | .bigint _ => .int64
  | .real _ => .float
  | .text _ => .text
  | .blob _ => .bytes

/-- First non-null value observed in column i across the row set, in row
    order. -/
def firstNonNull : List (List EngineValue) → Nat → Option EngineValue
  | [], _ => none
  | r :: rs, i =>
    if (colValue r i).isNull then firstNonNull rs i else some (colValue r i)

/-- Modelled from the spec: with no declared type, infer from the first
    non-null value observed in the column across the row set; if every value
    in the column is null, report unknown. -/
def inferColumnType (rows : List (List EngineValue)) (i : Nat) : ColumnType :=
  match firstNonNull rows i with
  | some v => inferTypeOfValue v
  | none => .unknown

/-- Modelled from the spec: map of the engine's declared type strings
    (the adapter's native type mapping table) to logical column types;
    an unrecognized string yields none and inference takes over. -/
def declaredToColumnType (s : String) : Option ColumnType :=
  if s = "TEXT" then some .text
  else if s = "INTEGER" then some .int64
  else if s = "BOOLEAN" then some .boolean
  else if s = "REAL" then some .float
  else if s = "DECIMAL" then some .decimal
  else if s = "NUMERIC" then some .datetime
  else if s = "JSONB" then some .json
  else if s = "BLOB" then some .bytes
  else none

/-- The type of the column at index i given its declared-type hint. -/
def columnTypeAt (d : Option String) (rows : List (List EngineValue)) (i : Nat) :
    ColumnType :=
  match d with
  | some ds =>
    match declaredToColumnType ds with
    | some ct => ct
    | none => inferColumnType rows i
  | none => inferColumnType rows i

def getColumnTypesGo (i : Nat) (declared : List (Option String))
    (rows : List (List EngineValue)) : List ColumnType :=
  match declared with
  | [] => []
  | d :: ds => columnTypeAt d rows i :: getColumnTypesGo (i + 1) ds rows

/-- Modelled from the spec: getColumnTypes of the conversion module (not under
    src/): one logical type per result column, computed once from the declared
    type hints and, where those are absent or unreliable, from the first
    non-null value of the column across the whole row set. -/
def getColumnTypes (declared : List (Option String))
    (rows : List (List EngineValue)) : List ColumnType :=
  getColumnTypesGo 0 declared rows

/-- Modelled from the spec: mapRow of the conversion module (not under src/):
    converts every value of a row at the single per-column type list computed
    by getColumnTypes. -/
def mapRow (row : List EngineValue) (types : List ColumnType)
    (opts : AdapterOptions) : Except ConvErr (List ORMValue) :=
  match row, types with
  | [], _ => .ok []
  | _ :: _, [] => .ok []
  | v :: vs, t :: ts =>
    match mapValue v t opts with
    | .error e => .error e
    | .ok x =>
      match mapRow vs ts opts with
      | .error e => .error e
      | .ok xs => .ok (x :: xs)

/-! ### The queryable: statement execution against the engine
(embeds NodeSQLiteQueryable of src/unnamed/part_002) -/

/-- An exception thrown by the embedded engine. -/
structure EngineError where
  code : Nat
deriving DecidableEq, Repr

/-- The isolation levels of the driver-adapter contract. -/
inductive IsolationLevel where
  | readUncommitted | readCommitted | repeatableRead | snapshot | serializable
deriving DecidableEq, Repr

/-- The ORM-facing driver error taxonomy (spec section 7). -/
inductive DriverError where
  | invalidIsolationLevel (level : IsolationLevel)
  | conversionFailed (e : ConvErr)
  | rawDatabase (code : Nat)
deriving DecidableEq, Repr

/-- Modelled from the spec: convertDriverError (errors.js, not under src/)
    maps an engine exception to one case of the fixed taxonomy, preserving the
    original code; this model keeps only the generic raw-database wrapping the
    claims rely on. -/
def convertDriverError (e : EngineError) : DriverError :=
  .rawDatabase e.code

/-- A prepared statement as the engine presents it: column metadata (name and
    declared type), the rows all() would return, the change count and last
    rowid run() would report, and the error execution would throw, if any. -/
structure PreparedStmt where
  columns : List (String × Option String)
  rows : List (List EngineValue)
  changes : Int
  lastInsertRowid : Int
  runError : Option EngineError

/-- A connection handle: prepare(sql) either yields a statement or throws. -/
structure Client where
  stmts : String → Except EngineError PreparedStmt

/-- SQL text plus typed positional arguments (immutable once submitted). -/
structure SqlQuery where
  sql : String
  args : List ORMValue
  argTypes : List ColumnType

/-- SQL-issuing effects of one queryable call, in order. -/
inductive Effect where
  | prepare (sql : String)
  | stmtRun (sql : String)
  | stmtAll (sql : String)
deriving DecidableEq, Repr

structure NodeSQLiteMeta where
  changes : Int
  lastInsertRowid : Int
deriving DecidableEq, Repr

structure NodeSQLiteResultSet where
  declaredTypes : List (Option String)
  columnNames : List String
  values : List (List EngineValue)

structure SqlResultSet where
  columnNames : List String
  columnTypes : List ColumnType
  rows : List (List ORMValue)

/-- args.map((arg, i) => mapArg(arg, argTypes[i], options)) of the source:
    every bound argument is converted before any engine call; the first
    failure aborts the whole conversion. -/
def mapArgs (args : List ORMValue) (argTypes : List ColumnType)
    (opts : AdapterOptions) : Except ConvErr (List EngineValue) :=
  match args, argTypes with
  | [], _ => .ok []
  | _ :: _, [] => .error .typeMismatch
  | v :: vs, t :: ts =>
    match mapArg v t opts with
    | .error e => .error e
    | .ok x =>
      match mapArgs vs ts opts with
      | .error e => .error e
      | .ok xs => .ok (x :: xs)

/-- Number() applied to the engine-reported change count.  The coercion is
    exact for every magnitude below 2^53; no claim here exercises the lossy
    range, so the model keeps the integer unchanged. -/
def jsNumber (n : Int) : Int := n

/-- Embeds NodeSQLiteQueryable.executeIO: convert all args, then prepare, then
    run, returning the engine-reported meta; any engine failure is translated.
    The effect list records which SQL reached the engine. -/
def executeIo (q : SqlQuery) (c : Client) (opts : AdapterOptions) :
    Except DriverError NodeSQLiteMeta × List Effect :=
  match mapArgs q.args q.argTypes opts with
  | .error e => (.error (.conversionFailed e), [])
  | .ok _ =>
    match c.stmts q.sql with
    | .error e => (.error (convertDriverError e), [.prepare q.sql])
    | .ok stmt =>
      match stmt.runError with
      | some e => (.error (convertDriverError e), [.prepare q.sql, .stmtRun q.sql])
      | none =>
        (.ok ⟨jsNumber stmt.changes, stmt.lastInsertRowid⟩,
         [.prepare q.sql, .stmtRun q.sql])

/-- Embeds NodeSQLiteQueryable.executeRaw: returns only the change count. -/
def executeRaw (q : SqlQuery) (c : Client) (opts : AdapterOptions) :
    Except DriverError Int × List Effect :=
  match executeIo q c opts with
  | (.error e, fx) => (.error e, fx)
  | (.ok meta, fx) => (.ok meta.changes, fx)

/-- Embeds NodeSQLiteQueryable.performIO: convert all args, prepare, read the
    column metadata; with no result columns run() the statement and return the
    empty result set, otherwise all() the rows. -/
def performIo (q : SqlQuery) (c : Client) (opts : AdapterOptions) :
    Except DriverError NodeSQLiteResultSet × List Effect :=
  match mapArgs q.args q.argTypes opts with
  | .error e => (.error (.conversionFailed e), [])
  | .ok _ =>
    match c.stmts q.sql with
    | .error e => (.error (convertDriverError e), [.prepare q.sql])
    | .ok stmt =>
      if stmt.columns.length = 0 then
        match stmt.runError with
        | some e => (.error (convertDriverError e), [.prepare q.sql, .stmtRun q.sql])
        | none => (.ok ⟨[], [], []⟩, [.prepare q.sql, .stmtRun q.sql])
      else
        match stmt.runError with
        | some e => (.error (convertDriverError e), [.prepare q.sql, .stmtAll q.sql])
        | none =>
          (.ok ⟨stmt.columns.map (fun cl => cl.2), stmt.columns.map (fun cl => cl.1),
             stmt.rows⟩,
           [.prepare q.sql, .stmtAll q.sql])

/-- Embeds NodeSQLiteQueryable.queryRaw: performIO, then one column-type list
    for the whole result, then every row converted at those same types. -/
def queryRaw (q : SqlQuery) (c : Client) (opts : AdapterOptions) :
    Except DriverError SqlResultSet × List Effect :=
  match performIo q c opts with
  | (.error e, fx) => (.error e, fx)
  | (.ok rs, fx) =>
    match rs.values.mapM
        (fun r => mapRow r (getColumnTypes rs.declaredTypes rs.values) opts) with
    | .ok rows2 =>
      (.ok ⟨rs.columnNames, getColumnTypes rs.declaredTypes rs.values, rows2⟩, fx)
    | .error e => (.error (.conversionFailed e), fx)

/-! ### Transactions (embeds NodeSQLiteTransaction and
PrismaNodeSQLiteAdapter.startTransaction of src/unnamed/part_002) -/

/-- Lock and SQL effects of one transaction-lifecycle call, in order. -/
inductive TxEffect where
  | acquireLock
  | releaseLock
  | sql (s : String)
deriving DecidableEq, Repr

def beginSql : String := "BEGIN"

structure TransactionOptions where
  usePhantomQuery : Bool
deriving DecidableEq, Repr

/-- The body of startTransaction after the isolation-level check: await
    mutex.acquire(), then prepare('BEGIN').run().  When BEGIN throws, the
    catch block rethrows through onError without invoking the release
    callback, so the trace carries no releaseLock. -/
def startTransactionLocked (beginError : Option EngineError) :
    Except DriverError TransactionOptions × List TxEffect :=
  match beginError with
  | none => (.ok ⟨false⟩, [.acquireLock, .sql beginSql])
  | some e => (.error (convertDriverError e), [.acquireLock, .sql beginSql])

/-- Embeds PrismaNodeSQLiteAdapter.startTransaction: a defined isolation
    level other than SERIALIZABLE throws InvalidIsolationLevel before the
    mutex is touched and before any SQL; otherwise the lock is acquired and
    BEGIN is issued. -/
def startTransaction (iso : Option IsolationLevel)
    (beginError : Option EngineError) :
    Except DriverError TransactionOptions × List TxEffect :=
  match iso with
  | some lvl =>
    if lvl ≠ .serializable then (.error (.invalidIsolationLevel lvl), [])
    else startTransactionLocked beginError
  | none => startTransactionLocked beginError

/-- Embeds NodeSQLiteTransaction.commit: release the parent lock, nothing
    else. -/
def commitTx : Except DriverError Unit × List TxEffect :=
  (.ok (), [.releaseLock])

/-- Embeds NodeSQLiteTransaction.rollback: release the parent lock, nothing
    else. -/
def rollbackTx : Except DriverError Unit × List TxEffect :=
  (.ok (), [.releaseLock])

/-- The SQL statements among a list of transaction effects. -/
def sqlOf (fx : List TxEffect) : List String :=
  match fx with
  | [] => []
  | .sql s :: rest => s :: sqlOf rest
  | _ :: rest => sqlOf rest

def countAcquires (fx : List TxEffect) : Nat := fx.count .acquireLock

def countReleases (fx : List TxEffect) : Nat := fx.count .releaseLock

/-! ### The transaction protocol as a transition system

Interleaved executions of startTransaction / commit / rollback by any number
of transactions against one adapter.  A mutex acquisition together with the
synchronous prepare('BEGIN').run() that follows it forms one atomic step:
node's runtime never interleaves another adapter action between them. -/

inductive TxPhase where
  | notStarted | waiting | opened | committed | rolledBack | failed
deriving DecidableEq, Repr

/-- Adapter-wide state: who holds the mutex, and each transaction's phase. -/
structure ProtoState where
  lock : Option Nat
  phase : Nat → TxPhase

def initState : ProtoState := ⟨none, fun _ => .notStarted⟩

def setPhase (f : Nat → TxPhase) (t : Nat) (p : TxPhase) : Nat → TxPhase :=
  fun x => if x = t then p else f x

/-- One scheduler step of the transaction protocol, mirroring the code paths
    of startTransaction, commit and rollback. -/
inductive TxStep : ProtoState → ProtoState → Prop where
  | rejectIso (s : ProtoState) (t : Nat) (lvl : IsolationLevel)
      (h : s.phase t = .notStarted) (hbad : lvl ≠ .serializable) :
      TxStep s ⟨s.lock, setPhase s.phase t .failed⟩
  | requestTx (s : ProtoState) (t : Nat) (h : s.phase t = .notStarted) :
      TxStep s ⟨s.lock, setPhase s.phase t .waiting⟩
  | acquireBegin (s : ProtoState) (t : Nat) (h : s.phase t = .waiting)
      (hfree : s.lock = none) :
      TxStep s ⟨some t, setPhase s.phase t .opened⟩
  | acquireBeginFails (s : ProtoState) (t : Nat) (h : s.phase t = .waiting)
      (hfree : s.lock = none) :
      TxStep s ⟨some t, setPhase s.phase t .failed⟩
  | commitStep (s : ProtoState) (t : Nat) (h : s.phase t = .opened) :
      TxStep s ⟨none, setPhase s.phase t .committed⟩
  | rollbackStep (s : ProtoState) (t : Nat) (h : s.phase t = .opened) :
      TxStep s ⟨none, setPhase s.phase t .rolledBack⟩

/-- An execution: starts at the initial state, and every index either takes a
    protocol step or stutters. -/
def IsRun (σ : Nat → ProtoState) : Prop :=
  σ 0 = initState ∧ ∀ i, TxStep (σ i) (σ (i + 1)) ∨ σ (i + 1) = σ i

/-- Every open transaction holds the mutex. -/
def OpenInv (s : ProtoState) : Prop :=
  ∀ t, s.phase t = .opened → s.lock = some t

theorem setPhase_same (f : Nat → TxPhase) (t : Nat) (p : TxPhase) :
    setPhase f t p t = p := by
  simp [setPhase]

theorem setPhase_other (f : Nat → TxPhase) (t x : Nat) (p : TxPhase)
    (h : x ≠ t) : setPhase f t p x = f x := by
  simp [setPhase, h]

theorem txStep_openInv {s s' : ProtoState} (hs : TxStep s s') (hi : OpenInv s) :
    OpenInv s' := by
  cases hs with
  | rejectIso t lvl h hbad =>
    intro x hx
    dsimp only at hx ⊢
    rcases eq_or_ne x t with rfl | hne
    · simp [setPhase] at hx
    · rw [setPhase_other s.phase t x _ hne] at hx
      exact hi x hx
  | requestTx t h =>
    intro x hx
    dsimp only at hx ⊢
    rcases eq_or_ne x t with rfl | hne
    · simp [setPhase] at hx
    · rw [setPhase_other s.phase t x _ hne] at hx
      exact hi x hx
  | acquireBegin t h hfree =>
    intro x hx
    dsimp only at hx ⊢
    rcases eq_or_ne x t with rfl | hne
    · rfl
    · rw [setPhase_other s.phase t x _ hne] at hx
      have := hi x hx
      rw [hfree] at this
      exact absurd this (by simp)
  | acquireBeginFails t h hfree =>
    intro x hx
    dsimp only at hx ⊢
    rcases eq_or_ne x t with rfl | hne
    · simp [setPhase] at hx
    · rw [setPhase_other s.phase t x _ hne] at hx
      have := hi x hx
      rw [hfree] at this
      exact absurd this (by simp)
  | commitStep t h =>
    intro x hx
    dsimp only at hx ⊢
    rcases eq_or_ne x t with rfl | hne
    · simp [setPhase] at hx
    · rw [setPhase_other s.phase t x _ hne] at hx
      have h1 := hi x hx
      have h2 := hi t h
      rw [h1] at h2
      exact absurd (Option.some.inj h2) hne
  | rollbackStep t h =>
    intro x hx
    dsimp only at hx ⊢
    rcases eq_or_ne x t with rfl | hne
    · simp [setPhase] at hx
    · rw [setPhase_other s.phase t x _ hne] at hx
      have h1 := hi x hx
      have h2 := hi t h
      rw [h1] at h2
      exact absurd (Option.some.inj h2) hne

theorem run_openInv (σ : Nat → ProtoState) (hrun : IsRun σ) (i : Nat) :
    OpenInv (σ i) := by
  induction i with
  | zero =>
    rw [hrun.1]
    intro t ht
    simp [initState] at ht
  | succ n ih =>
    rcases hrun.2 n with hstep | hsame
    · exact txStep_openInv hstep ih
    · rw [hsame]
      exact ih

/-- Phases a transaction can be in once it has been opened. -/
def Settled (p : TxPhase) : Prop :=
  p = .opened ∨ p = .committed ∨ p = .rolledBack

theorem txStep_settled {s s' : ProtoState} (t : Nat) (hs : TxStep s s')
    (hp : Settled (s.phase t)) : Settled (s'.phase t) := by
  cases hs with
  | rejectIso u lvl h hbad =>
    rcases eq_or_ne t u with rfl | hne
    · rw [h] at hp
      rcases hp with h1 | h1 | h1 <;> exact absurd h1 (by decide)
    · show Settled (setPhase s.phase u .failed t)
      rw [setPhase_other s.phase u t _ hne]
      exact hp
  | requestTx u h =>
    rcases eq_or_ne t u with rfl | hne
    · rw [h] at hp
      rcases hp with h1 | h1 | h1 <;> exact absurd h1 (by decide)
    · show Settled (setPhase s.phase u .waiting t)
      rw [setPhase_other s.phase u t _ hne]
      exact hp
  | acquireBegin u h hfree =>
    rcases eq_or_ne t u with rfl | hne
    · show Settled (setPhase s.phase t .opened t)
      rw [setPhase_same]
      exact Or.inl rfl
    · show Settled (setPhase s.phase u .opened t)
      rw [setPhase_other s.phase u t _ hne]
      exact hp
  | acquireBeginFails u h hfree =>
    rcases eq_or_ne t u with rfl | hne
    · rw [h] at hp
      rcases hp with h1 | h1 | h1 <;> exact absurd h1 (by decide)
    · show Settled (setPhase s.phase u .failed t)
      rw [setPhase_other s.phase u t _ hne]
      exact hp
  | commitStep u h =>
    rcases eq_or_ne t u with rfl | hne
    · show Settled (setPhase s.phase t .committed t)
      rw [setPhase_same]
      exact Or.inr (Or.inl rfl)
    · show Settled (setPhase s.phase u .committed t)
      rw [setPhase_other s.phase u t _ hne]
      exact hp
  | rollbackStep u h =>
    rcases eq_or_ne t u with rfl | hne
    · show Settled (setPhase s.phase t .rolledBack t)
      rw [setPhase_same]
      exact Or.inr (Or.inr rfl)
    · show Settled (setPhase s.phase u .rolledBack t)
      rw [setPhase_other s.phase u t _ hne]
      exact hp

theorem run_settled (σ : Nat → ProtoState) (hrun : IsRun σ) (t i j : Nat)
    (hij : i ≤ j) (hp : Settled ((σ i).phase t)) : Settled ((σ j).phase t) := by
  induction j with
  | zero =>
    have h0 : i = 0 := by omega
    rw [h0] at hp
    exact hp
  | succ n ih =>
    rcases Nat.lt_or_ge i (n + 1) with h1 | h1
    · have hn := ih (by omega)
      rcases hrun.2 n with hstep | hsame
      · exact txStep_settled t hstep hn
      · rw [hsame]
        exact hn
    · have h2 : i = n + 1 := by omega
      rw [h2] at hp
      exact hp

/-! ### Claim theorems -/

theorem firstNonNull_none (rows : List (List EngineValue)) (i : Nat)
    (h : ∀ r ∈ rows, (colValue r i).isNull = true) :
    firstNonNull rows i = none := by
  induction rows with
  | nil => rfl
  | cons r rs ih =>
    have hr := h r (by simp)
    simp only [firstNonNull, hr, if_pos]
    exact ih fun r2 hr2 => h r2 (by simp [hr2])

def c4X : String := "x"

def c4Rows : List (List EngineValue) :=
  [[EngineValue.null], [EngineValue.int 5], [EngineValue.text c4X]]

def defaultOpts : AdapterOptions := ⟨TimestampFormat.iso8601⟩

/-- C4: with no declared type, the inferred ColumnType is the one determined
    by the first non-null value observed in the column across the whole row
    set; an all-null column reports unknown; the inferred type depends on the
    rows only through that first non-null value; and on the spec's example
    rows null, 5, "x" the inferred type is integer and is applied to every
    row alike, the "x" row failing with a type mismatch rather than being
    reinterpreted per-row. -/
theorem c4_inference_first_non_null :
    (∀ rows i v, firstNonNull rows i = some v →
       inferColumnType rows i = inferTypeOfValue v) ∧
    (∀ rows i, (∀ r ∈ rows, (colValue r i).isNull = true) →
       inferColumnType rows i = ColumnType.unknown) ∧
    (∀ rows rows2 i, firstNonNull rows i = firstNonNull rows2 i →
       inferColumnType rows i = inferColumnType rows2 i) ∧
    (getColumnTypes [none] c4Rows = [ColumnType.int32] ∧
     mapRow [EngineValue.null] [ColumnType.int32] defaultOpts =
       .ok [ORMValue.null] ∧
     mapRow [EngineValue.int 5] [ColumnType.int32] defaultOpts =
       .ok [ORMValue.int 5] ∧
     mapRow [EngineValue.text c4X] [ColumnType.int32] defaultOpts =
       .error ConvErr.typeMismatch) := by
  refine ⟨?_, ?_, ?_, ?_, ?_, ?_, ?_⟩
  · intro rows i v h
    simp only [inferColumnType, h]
  · intro rows i h
    simp only [inferColumnType, firstNonNull_none rows i h]
  · intro rows rows2 i h
    simp only [inferColumnType, h]
  · rfl
  · rfl
  · rfl
  · rfl

theorem c4_inference_first_non_null_witness :
    inferColumnType c4Rows 0 = ColumnType.int32 ∧
    inferColumnType [[EngineValue.null], []] 0 = ColumnType.unknown ∧
    inferColumnType [[EngineValue.int 7]] 0 =
      inferColumnType [[EngineValue.int 7], [EngineValue.text c4X]] 0 :=
  ⟨c4_inference_first_non_null.1 c4Rows 0 (EngineValue.int 5) rfl,
   c4_inference_first_non_null.2.1 [[EngineValue.null], []] 0 (by decide),
   c4_inference_first_non_null.2.2.1 [[EngineValue.int 7]]
     [[EngineValue.int 7], [EngineValue.text c4X]] 0 rfl⟩

/-- C5: for every ColumnType and every value of that type, including big
    integers, decimals and timestamps in each of the two configured formats
    independently, converting the value outbound (mapArg) and reading it back
    inbound (mapValue) yields exactly the original value. -/
theorem c5_round_trip (opts : AdapterOptions) (t : ColumnType) (v : ORMValue)
    (hv : TypedValue t v) : roundTrip v t opts = .ok v := by
  obtain ⟨fmt⟩ := opts
  cases t <;> cases v <;> simp only [TypedValue] at hv <;>
    first
      | exact hv.elim
      | rfl
      | skip
  case decimal.decimal s =>
    show (mapArg (ORMValue.decimal s) ColumnType.decimal ⟨fmt⟩).bind
        (fun ev => mapValue ev ColumnType.decimal ⟨fmt⟩) = Except.ok (ORMValue.decimal s)
    rw [show mapArg (ORMValue.decimal s) ColumnType.decimal ⟨fmt⟩ =
      Except.ok (EngineValue.text s) from if_pos hv]
    rfl
  case boolean.bool b =>
    cases b <;> rfl
  case datetime.datetime dt =>
    show (mapArg (ORMValue.datetime dt) ColumnType.datetime ⟨fmt⟩).bind
        (fun ev => mapValue ev ColumnType.datetime ⟨fmt⟩) =
      Except.ok (ORMValue.datetime dt)
    cases fmt
    · rw [show mapArg (ORMValue.datetime dt) ColumnType.datetime
          ⟨TimestampFormat.iso8601⟩ =
        Except.ok (EngineValue.text (isoFormat dt)) from if_pos hv]
      show (match isoParse (isoFormat dt) with
        | some dt2 => Except.ok (ORMValue.datetime dt2)
        | none => Except.error ConvErr.typeMismatch) = Except.ok (ORMValue.datetime dt)
      rw [isoParse_isoFormat dt hv]
    · rw [show mapArg (ORMValue.datetime dt) ColumnType.datetime
          ⟨TimestampFormat.unixepochMs⟩ =
        Except.ok (EngineValue.int (epochMs dt)) from if_pos hv]
      show (match msToDateTime (epochMs dt) with
        | some dt2 => Except.ok (ORMValue.datetime dt2)
        | none => Except.error ConvErr.typeMismatch) = Except.ok (ORMValue.datetime dt)
      rw [msToDateTime_epochMs dt hv]
  case json.json s =>
    exact if_pos hv

def c5Dt : DateTimeVal := ⟨2024, 5, 7, 13, 59, 8, 123⟩

def c5Dec : String := "-12345678901234567890.5"

theorem c5_round_trip_witness :
    TypedValue ColumnType.datetime (ORMValue.datetime c5Dt) ∧
    roundTrip (ORMValue.datetime c5Dt) ColumnType.datetime
      ⟨TimestampFormat.iso8601⟩ = .ok (ORMValue.datetime c5Dt) ∧
    roundTrip (ORMValue.datetime c5Dt) ColumnType.datetime
      ⟨TimestampFormat.unixepochMs⟩ = .ok (ORMValue.datetime c5Dt) ∧
    TypedValue ColumnType.int64 (ORMValue.bigint (2 ^ 62 + 3)) ∧
    roundTrip (ORMValue.bigint (2 ^ 62 + 3)) ColumnType.int64 defaultOpts =
      .ok (ORMValue.bigint (2 ^ 62 + 3)) ∧
    TypedValue ColumnType.decimal (ORMValue.decimal c5Dec) ∧
    roundTrip (ORMValue.decimal c5Dec) ColumnType.decimal defaultOpts =
      .ok (ORMValue.decimal c5Dec) :=
  ⟨by decide,
   c5_round_trip ⟨TimestampFormat.iso8601⟩ ColumnType.datetime
     (ORMValue.datetime c5Dt) (by decide),
   c5_round_trip ⟨TimestampFormat.unixepochMs⟩ ColumnType.datetime
     (ORMValue.datetime c5Dt) (by decide),
   by decide,
   c5_round_trip defaultOpts ColumnType.int64 (ORMValue.bigint (2 ^ 62 + 3))
     (by decide),
   by decide,
   c5_round_trip defaultOpts ColumnType.decimal (ORMValue.decimal c5Dec)
     (by decide)⟩

/-- C1 (code bug in the source): on the path where BEGIN throws after the
    mutex was acquired, startTransaction's catch block rethrows without ever
    invoking the release callback, so that acquisition is never balanced by a
    release; commit and rollback each release exactly once.  The claim that
    the lock is released exactly once on every path, including the error path
    after acquisition, therefore fails on the BEGIN-failure path. -/
theorem c1_begin_failure_leaks_lock :
    countAcquires (startTransaction (some IsolationLevel.serializable)
      (some ⟨1⟩)).2 = 1 ∧
    countReleases (startTransaction (some IsolationLevel.serializable)
      (some ⟨1⟩)).2 = 0 ∧
    (startTransaction (some IsolationLevel.serializable) (some ⟨1⟩)).1 =
      .error (convertDriverError ⟨1⟩) ∧
    countReleases commitTx.2 = 1 ∧
    countReleases rollbackTx.2 = 1 ∧
    countAcquires (startTransaction none none).2 = 1 := by
  refine ⟨by decide, by decide, rfl, by decide, by decide, by decide⟩

/-- C3: a defined isolation level other than SERIALIZABLE makes
    startTransaction fail immediately with the invalid-isolation-level error,
    with an empty effect trace: the mutex is never acquired and no SQL
    (including BEGIN) is issued, so adapter state and database are
    unchanged. -/
theorem c3_invalid_isolation_rejected_early (iso : Option IsolationLevel)
    (lvl : IsolationLevel) (b : Option EngineError)
    (hiso : iso = some lvl) (hbad : lvl ≠ IsolationLevel.serializable) :
    startTransaction iso b = (.error (.invalidIsolationLevel lvl), []) := by
  subst hiso
  simp only [startTransaction]
  rw [if_pos hbad]

theorem c3_invalid_isolation_rejected_early_witness :
    startTransaction (some IsolationLevel.readCommitted) none =
      (.error (.invalidIsolationLevel IsolationLevel.readCommitted), []) :=
  c3_invalid_isolation_rejected_early (some IsolationLevel.readCommitted)
    IsolationLevel.readCommitted none rfl (by decide)

/-- C7: commit and rollback only release the exclusive lock: their whole
    observable behavior is the single releaseLock effect, with no SQL, so the
    engine connection state is untouched; and the only transaction-control
    SQL this layer ever issues is the BEGIN of startTransaction. -/
theorem c7_commit_rollback_release_only (iso : Option IsolationLevel)
    (b : Option EngineError) :
    commitTx = (.ok (), [TxEffect.releaseLock]) ∧
    rollbackTx = (.ok (), [TxEffect.releaseLock]) ∧
    sqlOf commitTx.2 = [] ∧
    sqlOf rollbackTx.2 = [] ∧
    (sqlOf (startTransaction iso b).2 = [] ∨
     sqlOf (startTransaction iso b).2 = [beginSql]) := by
  refine ⟨rfl, rfl, rfl, rfl, ?_⟩
  cases iso with
  | none => cases b <;> exact Or.inr rfl
  | some lvl => cases lvl <;> cases b <;> first | exact Or.inl rfl | exact Or.inr rfl

/-- A startTransaction outcome that is the invalid-isolation-level error. -/
def resultIsInvalidIsolation
    (r : Except DriverError TransactionOptions) : Prop :=
  ∃ lvl, r = .error (.invalidIsolationLevel lvl)

/-- C10: startTransaction raises the invalid-isolation-level error exactly
    when a defined isolation level different from SERIALIZABLE is supplied:
    never when the level is omitted, and never for SERIALIZABLE itself. -/
theorem c10_invalid_isolation_iff (iso : Option IsolationLevel)
    (b : Option EngineError) :
    resultIsInvalidIsolation (startTransaction iso b).1 ↔
      (∃ lvl, iso = some lvl ∧ lvl ≠ IsolationLevel.serializable) := by
  cases iso with
  | none =>
    cases b <;>
      simp [startTransaction, startTransactionLocked, resultIsInvalidIsolation,
        convertDriverError]
  | some lvl =>
    cases lvl <;> cases b <;>
      simp [startTransaction, startTransactionLocked, resultIsInvalidIsolation,
        convertDriverError]

/-- C6 counterexample: the source returns Number(result.changes) with no
    32-bit coercion; a change count of 2^33 reported by the engine is
    returned as-is, outside the claimed [0, 2^32-1] bound. -/
def c6Sql : String := "DELETE FROM t"

def c6Stmt : PreparedStmt := ⟨[], [], 2 ^ 33, 0, none⟩

def c6Client : Client := ⟨fun _ => .ok c6Stmt⟩

def c6Query : SqlQuery := ⟨c6Sql, [], []⟩

theorem c6_changes_not_capped_counterexample :
    (executeRaw c6Query c6Client defaultOpts).1 = .ok (2 ^ 33) ∧
    ¬((2 ^ 33 : Int) ≤ 2 ^ 32 - 1) := by
  exact ⟨rfl, by decide⟩

/-- C6 (amended): executeRaw returns only the engine-reported count of rows
    changed, unmodified: no coercion into the 32-bit unsigned bound is
    applied, so counts outside [0, 2^32-1] are passed through unchanged. -/
theorem c6_amended_execute_returns_engine_count (q : SqlQuery) (c : Client)
    (opts : AdapterOptions) (stmt : PreparedStmt) (args : List EngineValue)
    (hargs : mapArgs q.args q.argTypes opts = .ok args)
    (hprep : c.stmts q.sql = .ok stmt) (hrun : stmt.runError = none) :
    (executeRaw q c opts).1 = .ok stmt.changes := by
  simp [executeRaw, executeIo, hargs, hprep, hrun, jsNumber]

theorem c6_amended_execute_returns_engine_count_witness :
    (executeRaw c6Query c6Client defaultOpts).1 = .ok c6Stmt.changes :=
  c6_amended_execute_returns_engine_count c6Query c6Client defaultOpts c6Stmt []
    rfl rfl rfl

/-- C8: when the prepared statement produces no result columns, queryRaw
    executes the statement (the run effect is issued) and returns the empty
    result set: empty column names, empty column types, empty rows. -/
theorem c8_no_columns_empty_result (q : SqlQuery) (c : Client)
    (opts : AdapterOptions) (stmt : PreparedStmt) (args : List EngineValue)
    (hargs : mapArgs q.args q.argTypes opts = .ok args)
    (hprep : c.stmts q.sql = .ok stmt)
    (hcols : stmt.columns = []) (hrun : stmt.runError = none) :
    queryRaw q c opts =
      (.ok ⟨[], [], []⟩, [Effect.prepare q.sql, Effect.stmtRun q.sql]) := by
  unfold queryRaw
  rw [show performIo q c opts =
    (.ok ⟨[], [], []⟩, [Effect.prepare q.sql, Effect.stmtRun q.sql]) from by
      simp [performIo, hargs, hprep, hcols, hrun]]
  rfl

def c8Sql : String := "INSERT INTO t VALUES (1)"

def c8Stmt : PreparedStmt := ⟨[], [], 1, 1, none⟩

def c8Client : Client := ⟨fun _ => .ok c8Stmt⟩

def c8Query : SqlQuery := ⟨c8Sql, [], []⟩

theorem c8_no_columns_empty_result_witness :
    queryRaw c8Query c8Client defaultOpts =
      (.ok ⟨[], [], []⟩, [Effect.prepare c8Sql, Effect.stmtRun c8Sql]) :=
  c8_no_columns_empty_result c8Query c8Client defaultOpts c8Stmt [] rfl rfl rfl
    rfl

/-- C9: in both the read and the write path, every bound argument is
    converted before the statement is prepared or executed, so a conversion
    failure yields the translated error with an empty effect trace: no SQL of
    any kind reaches the engine and the database is unchanged. -/
theorem c9_conversion_failure_no_sql (q : SqlQuery) (c : Client)
    (opts : AdapterOptions) (e : ConvErr)
    (herr : mapArgs q.args q.argTypes opts = .error e) :
    executeIo q c opts = (.error (.conversionFailed e), []) ∧
    performIo q c opts = (.error (.conversionFailed e), []) ∧
    executeRaw q c opts = (.error (.conversionFailed e), []) ∧
    queryRaw q c opts = (.error (.conversionFailed e), []) := by
  refine ⟨?_, ?_, ?_, ?_⟩ <;>
    simp [executeIo, performIo, executeRaw, queryRaw, herr]

def c9Sql : String := "SELECT ?"

def c9Query : SqlQuery :=
  ⟨c9Sql, [ORMValue.text c4X], [ColumnType.boolean]⟩

theorem c9_conversion_failure_no_sql_witness :
    executeIo c9Query c6Client defaultOpts =
      (.error (.conversionFailed ConvErr.typeMismatch), []) ∧
    queryRaw c9Query c6Client defaultOpts =
      (.error (.conversionFailed ConvErr.typeMismatch), []) :=
  ⟨(c9_conversion_failure_no_sql c9Query c6Client defaultOpts
      ConvErr.typeMismatch rfl).1,
   (c9_conversion_failure_no_sql c9Query c6Client defaultOpts
      ConvErr.typeMismatch rfl).2.2.2⟩

/-- C2: in every interleaved execution of the transaction protocol, two
    distinct transactions are never simultaneously Open, and a transaction
    that becomes Open after another one was Open finds that earlier
    transaction already Committed or RolledBack (its mutex hold released). -/
theorem c2_mutual_exclusion :
    (∀ (σ : Nat → ProtoState), IsRun σ → ∀ i t1 t2,
       (σ i).phase t1 = .opened → (σ i).phase t2 = .opened → t1 = t2) ∧
    (∀ (σ : Nat → ProtoState), IsRun σ → ∀ i j t1 t2, i ≤ j → t1 ≠ t2 →
       (σ i).phase t1 = .opened → (σ j).phase t2 = .opened →
       (σ j).phase t1 = .committed ∨ (σ j).phase t1 = .rolledBack) := by
  constructor
  · intro σ hrun i t1 t2 h1 h2
    have inv := run_openInv σ hrun i
    have e1 := inv t1 h1
    have e2 := inv t2 h2
    rw [e1] at e2
    exact Option.some.inj e2
  · intro σ hrun i j t1 t2 hij hne h1 h2
    have hs := run_settled σ hrun t1 i j hij (Or.inl h1)
    rcases hs with h3 | h3 | h3
    · have inv := run_openInv σ hrun j
      have e1 := inv t1 h3
      have e2 := inv t2 h2
      rw [e1] at e2
      exact absurd (Option.some.inj e2) hne
    · exact Or.inl h3
    · exact Or.inr h3

def ps0 : ProtoState := initState
def ps1 : ProtoState := ⟨ps0.lock, setPhase ps0.phase 0 .waiting⟩
def ps2 : ProtoState := ⟨some 0, setPhase ps1.phase 0 .opened⟩
def ps3 : ProtoState := ⟨none, setPhase ps2.phase 0 .committed⟩
def ps4 : ProtoState := ⟨ps3.lock, setPhase ps3.phase 1 .waiting⟩
def ps5 : ProtoState := ⟨some 1, setPhase ps4.phase 1 .opened⟩

def c2Run : Nat → ProtoState
  | 0 => ps0
  | 1 => ps1
  | 2 => ps2
  | 3 => ps3
  | 4 => ps4
  | _ => ps5

theorem c2Run_isRun : IsRun c2Run := by
  constructor
  · rfl
  · intro i
    match i with
    | 0 => exact Or.inl (TxStep.requestTx ps0 0 rfl)
    | 1 => exact Or.inl (TxStep.acquireBegin ps1 0 rfl rfl)
    | 2 => exact Or.inl (TxStep.commitStep ps2 0 rfl)
    | 3 => exact Or.inl (TxStep.requestTx ps3 1 rfl)
    | 4 => exact Or.inl (TxStep.acquireBegin ps4 1 rfl rfl)
    | n + 5 => exact Or.inr rfl

theorem c2_mutual_exclusion_witness :
    IsRun c2Run ∧
    (c2Run 2).phase 0 = .opened ∧
    (c2Run 5).phase 1 = .opened ∧
    ((c2Run 5).phase 0 = .committed ∨ (c2Run 5).phase 0 = .rolledBack) ∧
    (0 : Nat) = 0 :=
  ⟨c2Run_isRun, rfl, rfl,
   c2_mutual_exclusion.2 c2Run c2Run_isRun 2 5 0 1 (by decide) (by decide)
     rfl rfl,
   c2_mutual_exclusion.1 c2Run c2Run_isRun 2 0 0 rfl rfl⟩

end PrismaNodeSqlite
